import Mathlib

/-!
Verification development for the steel materials dashboard (`src/app.py`).

The program is a pandas/streamlit app.  We embed the data-processing layer
shallowly: a dataframe is an ordered list of column names together with a
list of rows, each row a list of cells; a cell is a string, a finite number
(modelled as a rational, since none of the verified properties depend on
floating-point rounding), or a missing value (pandas `NaN`).  Library calls
(`pd.to_numeric`, `fillna`, boolean-mask filtering, `str.contains`,
`mean`/`max`) are translated into executable Lean functions on this model.
-/

/-- A pandas cell: a string, a finite number (rational model of a float),
or a missing value (`NaN` / `None`). -/
inductive Cell where
  | str (s : String)
  | num (q : ℚ)
  | null
deriving DecidableEq, Repr

/-- Value of a decimal-digit list, most significant first. -/
def digitsVal (ds : List Char) : ℕ :=
  ds.foldl (fun n c => 10 * n + (c.toNat - '0'.toNat)) 0

/-- All characters are decimal digits. -/
def allDigits (ds : List Char) : Bool :=
  ds.all (fun c => c.isDigit)

/-- Numeric parsing as performed by `pd.to_numeric` on a string entry:
an optional sign, an integer part, an optional fractional part after a
decimal point; at least one digit overall.  Strings such as `"bad"` do not
parse.  Returns the parsed value as a rational. -/
def parseNumeric (s : String) : Option ℚ :=
  let cs := s.toList
  let signBody : ℤ × List Char :=
    match cs with
    | '-' :: rest => (-1, rest)
    | '+' :: rest => (1, rest)
    | _ => (1, cs)
  let sign := signBody.1
  let body := signBody.2
  let ip := body.takeWhile (fun c => c ≠ '.')
  let rest := body.dropWhile (fun c => c ≠ '.')
  match rest with
  | [] =>
      if ip ≠ [] ∧ allDigits ip then
        some ((sign : ℚ) * (digitsVal ip : ℚ))
      else none
  | '.' :: fp =>
      if (ip ≠ [] ∨ fp ≠ []) ∧ allDigits ip ∧ allDigits fp then
        some ((sign : ℚ) * ((digitsVal ip : ℚ) + (digitsVal fp : ℚ) / ((10 : ℚ) ^ fp.length)))
      else none
  | _ :: _ => none

/-- `pd.to_numeric(col, errors='coerce')` on one cell: numbers pass
through, strings parse or become missing, missing stays missing. -/
def toNumericCoerce : Cell → Cell
  | .num q => .num q
  | .null => .null
  | .str s =>
      match parseNumeric s with
      | some q => .num q
      | none => .null

/-- `.fillna(0)` on one cell: a missing value becomes the number 0. -/
def fillnaZero : Cell → Cell
  | .null => .num 0
  | c => c

/-- The combined per-cell normalization of `load_data`:
`pd.to_numeric(df[col], errors='coerce').fillna(0)`. -/
def coerceFill (c : Cell) : Cell :=
  fillnaZero (toNumericCoerce c)

/-- `needle ∈ hay` on character lists: `needle` occurs contiguously. -/
def subOccurs : List Char → List Char → Bool
  | needle, [] => needle.isEmpty
  | needle, c :: cs => needle.isPrefixOf (c :: cs) || subOccurs needle cs

/-- Python's `'Avg' in c` test: case-sensitive substring containment. -/
def containsSub (needle hay : String) : Bool :=
  subOccurs needle.toList hay.toList

/-- A dataframe: ordered column names and rows of cells. -/
structure Df where
  cols : List String
  rows : List (List Cell)
deriving DecidableEq, Repr

/-- `num_cols = [c for c in df.columns if 'Avg' in c]` in `load_data`. -/
def avgCols (df : Df) : List String :=
  df.cols.filter (fun c => containsSub "Avg" c)

/-- One row after the `for col in num_cols:` loop of `load_data`: the cell
under a column whose name contains `'Avg'` is coerced-and-filled, every
other cell is untouched. -/
def normalizeRow (cols : List String) (row : List Cell) : List Cell :=
  List.zipWith (fun c v => if containsSub "Avg" c then coerceFill v else v) cols row

/-- The whole normalization step of `load_data` (lines 38-41 of
`src/app.py`): every `'Avg'` column is coerced to numeric with invalid
entries mapped to 0; columns are neither added nor removed. -/
def normalizeDf (df : Df) : Df :=
  ⟨df.cols, df.rows.map (normalizeRow df.cols)⟩

/-- The outcomes of the three library readers of `load_data` on one file's
bytes: `pd.read_csv(..., encoding='utf-8')`, `pd.read_csv(..., encoding='gbk')`
and `pd.read_excel(..., engine='openpyxl')`.  Each field is `some` parsed
table when the reader succeeds and `none` when it raises (the bare
`except:` in the source catches every exception, so a reader's behaviour is
fully described by this option). -/
structure RawFile where
  csvUtf8 : Option Df
  csvGbk : Option Df
  excel : Option Df
deriving Repr

/-- The `for name, reader in readers:` loop of `load_data`: try the readers
in their listed priority order and keep the first success. -/
def decodeRaw (f : RawFile) : Option Df :=
  match f.csvUtf8 with
  | some d => some d
  | none =>
      match f.csvGbk with
      | some d => some d
      | none => f.excel

/-- Result of `load_data`: either the normalized table with the detected
numeric-column list, or a tagged failure carrying the diagnostic string the
source returns in place of the table. -/
inductive LoadResult where
  | ok (df : Df) (numCols : List String)
  | err (msg : String)
deriving Repr

/-- `load_data` (lines 12-43 of `src/app.py`).  The filesystem is the
`Option RawFile` argument: `none` when `os.path.exists` is false.  On
success the returned table is normalized and paired with the `'Avg'`
column names; on absence or total decode failure a tagged diagnostic is
returned; the function is total, matching the source's promise never to
raise. -/
def load_data (fs : Option RawFile) : LoadResult :=
  match fs with
  | none => .err "⚠️ 找不到 data.csv 文件"
  | some f =>
      match decodeRaw f with
      | none => .err "❌ 文件读取失败，请确保格式正确。"
      | some df => .ok (normalizeDf df) (avgCols df)

/-- `df.astype(str)` on one cell.  A string cell is itself; pandas renders
an integral float with a trailing `.0` and `NaN` as `"nan"`; non-integral
values print in a decimal form whose exact digits no verified property
depends on (the model uses the rational's own rendering). -/
def cellToString : Cell → String
  | .str s => s
  | .num q => if q.den = 1 then toString q.num ++ ".0" else toString q
  | .null => "nan"

/-- Case-insensitive substring containment: the matching relation the
spec ascribes to the search box. -/
def ciContainsSub (hay needle : String) : Bool :=
  subOccurs (needle.toList.map Char.toLower) (hay.toList.map Char.toLower)

/-- A token of the regular-expression fragment the search actually uses:
`pd.Series.str.contains(query, case=False)` defaults to `regex=True`, so
the query is handed to Python `re`, where `.` matches any single
character and other non-metacharacter characters match literally.  The
model covers patterns built from literals and `.`, the fragment exercised
by the verified properties. -/
inductive RTok where
  | lit (c : Char)
  | dot
deriving DecidableEq, Repr

/-- Compile a query string into regex tokens: `.` becomes the wildcard,
every other character a literal. -/
def queryToks (q : String) : List RTok :=
  q.toList.map (fun c => if c = '.' then .dot else .lit c)

/-- Match the token list against a prefix of the text, case-insensitively
(the source passes `case=False`, i.e. `re.IGNORECASE`). -/
def rmatchAt : List RTok → List Char → Bool
  | [], _ => true
  | _ :: _, [] => false
  | t :: ts, c :: cs =>
      (match t with
       | .dot => true
       | .lit a => a.toLower == c.toLower) && rmatchAt ts cs

/-- `re.search` semantics: the pattern matches at some position. -/
def rsearch (ts : List RTok) : List Char → Bool
  | [] => rmatchAt ts []
  | c :: cs => rmatchAt ts (c :: cs) || rsearch ts cs

/-- One row of
`df.astype(str).apply(lambda x: x.str.contains(query, case=False)).any(axis=1)`:
some stringified cell matches the query, interpreted as a case-insensitive
regular expression. -/
def rowMatchesCode (query : String) (row : List Cell) : Bool :=
  row.any (fun cell => rsearch (queryToks query) (cellToString cell).toList)

/-- The tab-1 search as implemented (lines 66-69 of `src/app.py`):
`results = df[mask]`, the rows whose mask entry is true, in order. -/
def searchCode (df : Df) (query : String) : List (List Cell) :=
  df.rows.filter (rowMatchesCode query)

/-- The search the spec describes: a row matches when some stringified
cell contains the query as a case-insensitive literal substring.  Stated
from the spec's words, to be compared with `searchCode`. -/
def searchSpec (df : Df) (query : String) : List (List Cell) :=
  df.rows.filter (fun row => row.any (fun cell => ciContainsSub (cellToString cell) query))

/-- What tab 1 renders: the head-5 preview (empty query), a result set
(matches found), or the explicit no-match warning. -/
inductive Tab1View where
  | preview (rows : List (List Cell))
  | results (rows : List (List Cell))
  | noMatch
deriving DecidableEq, Repr

/-- The tab-1 control flow (lines 64-78 of `src/app.py`): an empty query
shows `df.head(5)` behind the waiting caption; a non-empty query shows
the matching rows, or the warning when none match. -/
def tab1View (df : Df) (query : String) : Tab1View :=
  if query = "" then .preview (df.rows.take 5)
  else
    let res := searchCode df query
    if res.isEmpty then .noMatch else .results res

/-- Look a cell up by column name, as `row[col]` does against the header
list: the cell at the column's (first) position, missing when the column
is absent or the row is short. -/
def getCell (cols : List String) (row : List Cell) (c : String) : Cell :=
  match cols.findIdx? (fun x => x == c) with
  | some i => row.getD i .null
  | none => .null

/-- The boolean mask entry `series >= bound` for one cell of a numeric
column: true exactly when the cell is a number at least `bound`
(a missing value compares false, as `NaN` does in pandas). -/
def cellGe (c : Cell) (bound : ℚ) : Bool :=
  match c with
  | .num q => decide (bound ≤ q)
  | _ => false

/-- The boolean mask entry `series <= bound` for one cell. -/
def cellLe (c : Cell) (bound : ℚ) : Bool :=
  match c with
  | .num q => decide (q ≤ bound)
  | _ => false

/-- The tab-2 filter (lines 104-113 of `src/app.py`): three sequential
boolean-mask filters, each applied only when its column is present —
`HRC_Avg` within `[hrcMin, hrcMax]` (both comparisons inclusive), then
`Cr_Avg >= crLimit`, then `C_Avg >= cLimit`. -/
def filterTab2 (df : Df) (hrcMin hrcMax crLimit cLimit : ℚ) : List (List Cell) :=
  let r1 :=
    if df.cols.contains "HRC_Avg" then
      df.rows.filter (fun r =>
        cellGe (getCell df.cols r "HRC_Avg") hrcMin &&
        cellLe (getCell df.cols r "HRC_Avg") hrcMax)
    else df.rows
  let r2 :=
    if df.cols.contains "Cr_Avg" then
      r1.filter (fun r => cellGe (getCell df.cols r "Cr_Avg") crLimit)
    else r1
  if df.cols.contains "C_Avg" then
    r2.filter (fun r => cellGe (getCell df.cols r "C_Avg") cLimit)
  else r2

/-- `df[df['对比项目'].isin(selected)]`: a row is selected when its
identifier cell equals one of the selected identifier strings. -/
def subsetFor (df : Df) (selected : List String) : List (List Cell) :=
  df.rows.filter (fun r =>
    match getCell df.cols r "对比项目" with
    | .str s => selected.contains s
    | _ => false)

/-- The numeric entries of a cell list; pandas numeric aggregations skip
missing values, modelled by dropping non-numeric cells. -/
def numsOf (cells : List Cell) : List ℚ :=
  cells.filterMap (fun c =>
    match c with
    | .num q => some q
    | _ => none)

/-- A pandas scalar aggregate: a number, or the `NaN` an empty aggregation
produces. -/
inductive AggVal where
  | num (q : ℚ)
  | nan
deriving DecidableEq, Repr

/-- `Series.mean()`: the mean of the numeric entries, `NaN` when there are
none (pandas returns `NaN` for an empty mean rather than raising on the
zero division). -/
def seriesMean (cells : List Cell) : AggVal :=
  let xs := numsOf cells
  if xs.length = 0 then .nan else .num (xs.sum / (xs.length : ℚ))

/-- `Series.max()`: the maximum of the numeric entries, `NaN` when there
are none. -/
def seriesMax (cells : List Cell) : AggVal :=
  match numsOf cells with
  | [] => .nan
  | x :: rest => .num (rest.foldl max x)

/-- The named column of a row set, as a list of cells. -/
def columnOf (df : Df) (rows : List (List Cell)) (c : String) : List Cell :=
  rows.map (fun r => getCell df.cols r c)

/-- `avg_hrc = subset['HRC_Avg'].mean() if 'HRC_Avg' in subset.columns else 0`
(line 141 of `src/app.py`). -/
def comparatorAvgHrc (df : Df) (selected : List String) : AggVal :=
  if df.cols.contains "HRC_Avg" then
    seriesMean (columnOf df (subsetFor df selected) "HRC_Avg")
  else .num 0

/-- `max_cr = subset['Cr_Avg'].max() if 'Cr_Avg' in subset.columns else 0`
(line 142 of `src/app.py`). -/
def comparatorMaxCr (df : Df) (selected : List String) : AggVal :=
  if df.cols.contains "Cr_Avg" then
    seriesMax (columnOf df (subsetFor df selected) "Cr_Avg")
  else .num 0

/-- Modelled from the spec: the fixed ordered composition-column list the
Predictor uses as features (spec §4.6); the Predictor itself is not in
`src/` (`src/app.py` contains no model), so it is modelled from the
spec's words. -/
def predictorFeatures : List String :=
  ["C_Avg", "Cr_Avg", "Mn_Avg", "Mo_Avg", "Ni_Avg", "V_Avg"]

/-- Modelled from the spec: a fitted gradient-boosted regressor.  With
fixed hyperparameters the fit is a deterministic function of the training
table, so the model is represented by the table it was fitted on. -/
structure GBRModel where
  trainData : Df
deriving DecidableEq, Repr

/-- Modelled from the spec: the one-time fit on the full normalized
dataset. -/
def fitGBR (d : Df) : GBRModel :=
  ⟨d⟩

/-- Modelled from the spec: the per-feature importance scores, one score
per feature column in the same order as `predictorFeatures`.  The numeric
value of each score is internal to the library regressor; the model
exposes a deterministic score per feature (the feature column's mean over
the training data, 0 when the aggregate is empty), which preserves the
interface shape the claim is about. -/
def GBRModel.importances (m : GBRModel) : List ℚ :=
  predictorFeatures.map (fun c =>
    match seriesMean (columnOf m.trainData m.trainData.rows c) with
    | .num q => q
    | .nan => 0)

/-- Modelled from the spec: a point prediction for a single feature
vector given in the same column order — a deterministic function of the
fitted model and the input vector. -/
def GBRModel.predict (m : GBRModel) (x : List ℚ) : ℚ :=
  (List.zipWith (fun w v => w * v) m.importances x).sum

/-- Modelled from the spec: the Predictor's two states — `unfit` before
the first load completes, `fit` after the one-time training (spec §4.6). -/
inductive PredictorState where
  | unfit
  | fit (m : GBRModel)
deriving DecidableEq, Repr

/-- Modelled from the spec: the events of one process lifetime — the
completion of the (cached) data load, and any later user interaction
(query, slider, selection, prediction request). -/
inductive AppEvent where
  | loadComplete (d : Df)
  | interaction
deriving DecidableEq, Repr

/-- Modelled from the spec: the Predictor's transition function.  In the
`unfit` state the first completed load triggers the one-time fit; once
`fit`, every event leaves the state unchanged (the load is cached and
there is no retraining endpoint). -/
def stepPred : PredictorState → AppEvent → PredictorState
  | .unfit, .loadComplete d => .fit (fitGBR d)
  | .unfit, .interaction => .unfit
  | .fit m, _ => .fit m

/-- Run the Predictor state machine over a process trace. -/
def runPred (s : PredictorState) (evts : List AppEvent) : PredictorState :=
  evts.foldl stepPred s

/-- Number of fit transitions (state changes from `unfit` to `fit`) along
a trace started in state `s`. -/
def fitCount (s : PredictorState) (evts : List AppEvent) : ℕ :=
  match evts with
  | [] => 0
  | e :: rest =>
      (match s, stepPred s e with
       | .unfit, .fit _ => 1
       | _, _ => 0) + fitCount (stepPred s e) rest

/-- The concrete table of the spec's §8 scenario: one `HRC_Avg` column
with entries 20, `"bad"`, 60. -/
def dfScenario : Df :=
  ⟨["HRC_Avg"], [[Cell.num 20], [Cell.str "bad"], [Cell.num 60]]⟩

/-- A file on which only the GBK reader succeeds. -/
def rawGbkOnly : RawFile :=
  ⟨none, some dfScenario, none⟩

/-- A two-row table for exercising the search: the query `"a.c"` occurs
as a literal substring only in the first row's cell. -/
def dfSearch : Df :=
  ⟨["name"], [[Cell.str "xa.c"], [Cell.str "abc"]]⟩

/-- A one-row table: its head-5 preview is the entire table. -/
def dfOneRow : Df :=
  ⟨["name"], [[Cell.str "A"]]⟩

/-- A six-row table: its head-5 preview is a proper subset. -/
def dfSixRows : Df :=
  ⟨["name"],
   [[Cell.str "r1"], [Cell.str "r2"], [Cell.str "r3"],
    [Cell.str "r4"], [Cell.str "r5"], [Cell.str "r6"]]⟩

/-- A one-row table carrying all three filter columns. -/
def dfFilter : Df :=
  ⟨["HRC_Avg", "Cr_Avg", "C_Avg"], [[Cell.num 30, Cell.num 10, Cell.num 1]]⟩

/-- A one-row comparator table with identifier `"A"`, hardness 50 and
chromium 12. -/
def dfComp : Df :=
  ⟨["对比项目", "HRC_Avg", "Cr_Avg"], [[Cell.str "A", Cell.num 50, Cell.num 12]]⟩

/-- A table from which the expected column `HRC_Avg` is absent. -/
def dfNoHrc : Df :=
  ⟨["Name", "C_Avg"], [[Cell.str "A", Cell.num 1]]⟩

lemma coerceFill_is_num (v : Cell) : ∃ q, coerceFill v = Cell.num q := by
  cases v with
  | num q => exact ⟨q, rfl⟩
  | null => exact ⟨0, rfl⟩
  | str s =>
      cases h : parseNumeric s with
      | some q => exact ⟨q, by simp [coerceFill, toNumericCoerce, h, fillnaZero]⟩
      | none => exact ⟨0, by simp [coerceFill, toNumericCoerce, h, fillnaZero]⟩

lemma coerceFill_coerceFill (v : Cell) : coerceFill (coerceFill v) = coerceFill v := by
  obtain ⟨q, hq⟩ := coerceFill_is_num v
  rw [hq]
  rfl

lemma normalizeRow_normalizeRow (cols : List String) (row : List Cell) :
    normalizeRow cols (normalizeRow cols row) = normalizeRow cols row := by
  induction cols generalizing row with
  | nil => rfl
  | cons c cs ih =>
      cases row with
      | nil => rfl
      | cons v vs =>
          have ih' := ih vs
          simp only [normalizeRow] at ih' ⊢
          by_cases h : containsSub "Avg" c = true
          · simp [List.zipWith, h, ih', coerceFill_coerceFill]
          · simp [List.zipWith, h, ih']

lemma runPred_fit (m : GBRModel) (evts : List AppEvent) :
    runPred (.fit m) evts = .fit m := by
  induction evts with
  | nil => rfl
  | cons e rest ih =>
      cases e <;> simpa [runPred, stepPred] using ih

lemma fitCount_fit (m : GBRModel) (evts : List AppEvent) :
    fitCount (.fit m) evts = 0 := by
  induction evts with
  | nil => rfl
  | cons e rest ih =>
      cases e <;> simpa [fitCount, stepPred] using ih

lemma iteFilter_sublist {α : Type} (c : Prop) [Decidable c]
    (l : List α) (p : α → Bool) :
    (if c then l.filter p else l).Sublist l := by
  split
  · exact List.filter_sublist l
  · exact List.Sublist.refl l

lemma normalizeRow_avg_num (cols : List String) (raw : List Cell) (i : ℕ)
    (name : String) (cell : Cell)
    (hcol : cols[i]? = some name)
    (havg : containsSub "Avg" name = true)
    (hcell : (normalizeRow cols raw)[i]? = some cell) :
    ∃ q, cell = Cell.num q := by
  induction cols generalizing raw i with
  | nil => simp at hcol
  | cons c cs ih =>
      cases raw with
      | nil => simp [normalizeRow] at hcell
      | cons v vs =>
          cases i with
          | zero =>
              simp at hcol
              subst hcol
              simp [normalizeRow, List.zipWith, havg] at hcell
              obtain ⟨q, hq⟩ := coerceFill_is_num v
              exact ⟨q, by rw [← hcell, hq]⟩
          | succ j =>
              simp at hcol
              simp [normalizeRow, List.zipWith] at hcell
              exact ih vs j hcol (by simpa [normalizeRow] using hcell)

/-- C9: normalization is idempotent — re-applying the numeric coercion
step (coerce each `'Avg'` column to numeric, invalid entries to 0) to an
already-normalized table changes no cell. -/
theorem normalize_idempotent (df : Df) :
    normalizeDf (normalizeDf df) = normalizeDf df := by
  unfold normalizeDf
  simp only [List.map_map]
  congr 1
  apply List.map_congr_left
  intro r _
  exact normalizeRow_normalizeRow df.cols r

/-- C10: the tab-2 filter never reorders or modifies rows — for every
table and bound configuration its output is a sublist of the input rows
(each output row is an input row, relative order preserved, each input
occurrence used at most once). -/
theorem filter_output_sublist (df : Df) (hrcMin hrcMax crLimit cLimit : ℚ) :
    (filterTab2 df hrcMin hrcMax crLimit cLimit).Sublist df.rows
    ∧ ∀ r ∈ filterTab2 df hrcMin hrcMax crLimit cLimit, r ∈ df.rows := by
  have h : (filterTab2 df hrcMin hrcMax crLimit cLimit).Sublist df.rows := by
    unfold filterTab2
    exact (iteFilter_sublist _ _ _).trans
      ((iteFilter_sublist _ _ _).trans (iteFilter_sublist _ _ _))
  exact ⟨h, fun r hr => h.subset hr⟩

/-- C3: the Predictor fits exactly once per process lifetime — started
unfit, the first completed load fits the model on the loaded table, every
later event leaves the fitted state unchanged (no Fit→Unfit transition,
no refit), the whole trace performs exactly one fit transition, and the
fitted model exposes one importance score per feature column, in order,
together with a point prediction for a feature vector in that order. -/
theorem predictor_fit_once (d : Df) (evts : List AppEvent) :
    runPred .unfit (AppEvent.loadComplete d :: evts) = .fit (fitGBR d)
    ∧ (∀ m e, stepPred (.fit m) e = .fit m)
    ∧ fitCount .unfit (AppEvent.loadComplete d :: evts) = 1
    ∧ (fitGBR d).importances.length = predictorFeatures.length
    ∧ ∀ x, (fitGBR d).predict x
        = (List.zipWith (fun w v => w * v) (fitGBR d).importances x).sum := by
  refine ⟨?_, ?_, ?_, ?_, ?_⟩
  · show runPred (stepPred .unfit (AppEvent.loadComplete d)) evts = .fit (fitGBR d)
    exact runPred_fit (fitGBR d) evts
  · intro m e
    cases e <;> rfl
  · show (1 + fitCount (stepPred .unfit (AppEvent.loadComplete d)) evts) = 1
    rw [show stepPred .unfit (AppEvent.loadComplete d) = .fit (fitGBR d) from rfl,
      fitCount_fit]
  · simp [GBRModel.importances]
  · intro x
    rfl

/-- C1: after normalization every cell of every row under a column whose
name contains `'Avg'` is a number; the per-cell map keeps every parseable
value as a number, sends every non-convertible string to 0, and sends
every missing entry to 0 — no cell is left as text, missing, or null. -/
theorem avg_columns_numeric (df : Df) (row : List Cell) (i : ℕ)
    (name : String) (cell : Cell)
    (hrow : row ∈ (normalizeDf df).rows)
    (hcol : (normalizeDf df).cols[i]? = some name)
    (havg : containsSub "Avg" name = true)
    (hcell : row[i]? = some cell) :
    (∃ q, cell = Cell.num q)
    ∧ (∀ s q, parseNumeric s = some q → coerceFill (Cell.str s) = Cell.num q)
    ∧ (∀ s, parseNumeric s = none → coerceFill (Cell.str s) = Cell.num 0)
    ∧ coerceFill Cell.null = Cell.num 0 := by
  refine ⟨?_, ?_, ?_, rfl⟩
  · simp only [normalizeDf, List.mem_map] at hrow
    obtain ⟨raw, _, hraw⟩ := hrow
    subst hraw
    exact normalizeRow_avg_num df.cols raw i name cell hcol havg hcell
  · intro s q hs
    simp [coerceFill, toNumericCoerce, hs, fillnaZero]
  · intro s hs
    simp [coerceFill, toNumericCoerce, hs, fillnaZero]

/-- C1 witness: on the spec's §8 scenario table the `"bad"` entry of
`HRC_Avg` has become the number 0. -/
theorem avg_columns_numeric_witness :
    ∃ q, Cell.num 0 = Cell.num q :=
  (avg_columns_numeric dfScenario [Cell.num 0] 0 "HRC_Avg" (Cell.num 0)
    (by decide) (by decide) (by decide) (by decide)).1

/-- C2: `load_data` tries the decoders in the fixed priority order
csv-utf8, csv-gbk, excel and returns the first success (normalized, with
the detected numeric columns); an absent file and a total decode failure
each yield a tagged diagnostic failure; the function is total, so no
exception reaches the caller. -/
theorem load_data_priority (fs : Option RawFile) :
    (fs = none → load_data fs = .err "⚠️ 找不到 data.csv 文件")
    ∧ (∀ f, fs = some f →
        (∀ d, f.csvUtf8 = some d →
          load_data fs = .ok (normalizeDf d) (avgCols d))
        ∧ (f.csvUtf8 = none → ∀ d, f.csvGbk = some d →
          load_data fs = .ok (normalizeDf d) (avgCols d))
        ∧ (f.csvUtf8 = none → f.csvGbk = none → ∀ d, f.excel = some d →
          load_data fs = .ok (normalizeDf d) (avgCols d))
        ∧ (f.csvUtf8 = none → f.csvGbk = none → f.excel = none →
          load_data fs = .err "❌ 文件读取失败，请确保格式正确。")) := by
  constructor
  · intro h
    subst h
    rfl
  · intro f hf
    subst hf
    refine ⟨?_, ?_, ?_, ?_⟩
    · intro d hd
      simp [load_data, decodeRaw, hd]
    · intro h1 d hd
      simp [load_data, decodeRaw, h1, hd]
    · intro h1 h2 d hd
      simp [load_data, decodeRaw, h1, h2, hd]
    · intro h1 h2 h3
      simp [load_data, decodeRaw, h1, h2, h3]

/-- C2 witness: on a file only the GBK reader can parse, `load_data`
returns that reader's table, normalized. -/
theorem load_data_priority_witness :
    load_data (some rawGbkOnly)
      = .ok (normalizeDf dfScenario) (avgCols dfScenario) :=
  ((load_data_priority (some rawGbkOnly)).2 rawGbkOnly rfl).2.1 rfl dfScenario rfl

/-- C4: divergence between the implemented search and the documented
substring search.  On the two-row table, the query `"a.c"` occurs as a
case-insensitive literal substring in exactly one cell of exactly one row
(the first), so the documented behaviour returns only that row; but the
code hands the query to the regex engine (`str.contains` defaults to
`regex=True`), where `.` matches any character, so the code also returns
the second row `"abc"`. -/
theorem search_regex_divergence :
    searchSpec dfSearch "a.c" = [[Cell.str "xa.c"]]
    ∧ searchCode dfSearch "a.c" = [[Cell.str "xa.c"], [Cell.str "abc"]]
    ∧ ciContainsSub "xa.c" "a.c" = true
    ∧ ciContainsSub "abc" "a.c" = false := by
  refine ⟨?_, ?_, rfl, rfl⟩ <;> rfl

/-- C5 counterexample: on a one-row table the empty query renders the
head-5 preview, and that preview is the full table — refuting "searching
with the empty query string never returns the full table". -/
theorem empty_query_full_table :
    tab1View dfOneRow "" = Tab1View.preview dfOneRow.rows
    ∧ dfOneRow.rows.length = 1 := ⟨rfl, rfl⟩

/-- C5 amended: the empty query always renders the fixed-size head-5
preview, which is a proper subset of the rows whenever the table has more
than 5 rows; the preview state is distinguishable from the no-match
state, which is rendered exactly when a non-empty query matches no
row. -/
theorem empty_query_preview (df : Df) (q : String) :
    (q = "" → tab1View df q = Tab1View.preview (df.rows.take 5)
      ∧ (5 < df.rows.length → (df.rows.take 5).length < df.rows.length))
    ∧ (∀ rows, Tab1View.preview rows ≠ Tab1View.noMatch)
    ∧ (q ≠ "" → searchCode df q = [] → tab1View df q = Tab1View.noMatch) := by
  refine ⟨?_, ?_, ?_⟩
  · intro h
    subst h
    refine ⟨rfl, ?_⟩
    intro h5
    simp [List.length_take]
    omega
  · intro rows
    exact fun h => Tab1View.noConfusion h
  · intro hq hres
    simp [tab1View, hq, hres]

/-- C5 witness: on the six-row table the empty query renders the head-5
preview and that preview is strictly smaller than the table. -/
theorem empty_query_preview_witness :
    tab1View dfSixRows "" = Tab1View.preview (dfSixRows.rows.take 5)
    ∧ (dfSixRows.rows.take 5).length < dfSixRows.rows.length := by
  have h := (empty_query_preview dfSixRows "").1 rfl
  exact ⟨h.1, h.2 (by decide)⟩

/-- C6: a row survives the tab-2 filter exactly when it is an input row
and satisfies every active predicate — `HRC_Avg` within the inclusive
range `[hrcMin, hrcMax]`, `Cr_Avg` at least `crLimit`, `C_Avg` at least
`cLimit` — where a predicate is active only when its column is present
in the schema; an absent column's predicate is a no-op and the filter is
a total function, so no error arises. -/
theorem tab2_filter_membership (df : Df) (hrcMin hrcMax crLimit cLimit : ℚ)
    (r : List Cell) (vH vCr vC : ℚ)
    (hH : "HRC_Avg" ∈ df.cols → getCell df.cols r "HRC_Avg" = Cell.num vH)
    (hCr : "Cr_Avg" ∈ df.cols → getCell df.cols r "Cr_Avg" = Cell.num vCr)
    (hC : "C_Avg" ∈ df.cols → getCell df.cols r "C_Avg" = Cell.num vC) :
    r ∈ filterTab2 df hrcMin hrcMax crLimit cLimit ↔
      r ∈ df.rows
      ∧ ("HRC_Avg" ∈ df.cols → hrcMin ≤ vH ∧ vH ≤ hrcMax)
      ∧ ("Cr_Avg" ∈ df.cols → crLimit ≤ vCr)
      ∧ ("C_Avg" ∈ df.cols → cLimit ≤ vC) := by
  unfold filterTab2
  by_cases h1 : "HRC_Avg" ∈ df.cols
  · by_cases h2 : "Cr_Avg" ∈ df.cols
    · by_cases h3 : "C_Avg" ∈ df.cols
      · simp [h1, h2, h3, List.mem_filter, hH h1, hCr h2, hC h3, cellGe, cellLe, and_assoc]
        try tauto
      · simp [h1, h2, h3, List.mem_filter, hH h1, hCr h2, cellGe, cellLe, and_assoc]
        try tauto
    · by_cases h3 : "C_Avg" ∈ df.cols
      · simp [h1, h2, h3, List.mem_filter, hH h1, hC h3, cellGe, cellLe, and_assoc]
        try tauto
      · simp [h1, h2, h3, List.mem_filter, hH h1, cellGe, cellLe, and_assoc]
        try tauto
  · by_cases h2 : "Cr_Avg" ∈ df.cols
    · by_cases h3 : "C_Avg" ∈ df.cols
      · simp [h1, h2, h3, List.mem_filter, hCr h2, hC h3, cellGe, cellLe, and_assoc]
        try tauto
      · simp [h1, h2, h3, List.mem_filter, hCr h2, cellGe, cellLe, and_assoc]
        try tauto
    · by_cases h3 : "C_Avg" ∈ df.cols
      · simp [h1, h2, h3, List.mem_filter, hC h3, cellGe, cellLe, and_assoc]
        try tauto
      · simp [h1, h2, h3, List.mem_filter, cellGe, cellLe, and_assoc]
        try tauto

/-- C6 witness: the row (30, 10, 1) passes the filter with bounds
HRC in `[20, 60]`, Cr at least 5, C at least 0. -/
theorem tab2_filter_membership_witness :
    [Cell.num 30, Cell.num 10, Cell.num 1] ∈ filterTab2 dfFilter 20 60 5 0 :=
  (tab2_filter_membership dfFilter 20 60 5 0
    [Cell.num 30, Cell.num 10, Cell.num 1] 30 10 1
    (by decide) (by decide) (by decide)).mpr
    ⟨by decide, by decide, by decide, by decide⟩

/-- C7 counterexample: with the hardness and chromium columns present but
the selected subset empty, the comparator's mean and max evaluate to the
pandas empty-aggregate `NaN`, not to the claimed default 0 (the 0 default
applies only when the column is absent). -/
theorem comparator_empty_subset_nan :
    comparatorAvgHrc dfComp ["B"] = AggVal.nan
    ∧ comparatorMaxCr dfComp ["B"] = AggVal.nan
    ∧ AggVal.nan ≠ AggVal.num 0 := by
  refine ⟨rfl, rfl, ?_⟩
  exact fun h => AggVal.noConfusion h

/-- C7 amended: the comparator's mean of `HRC_Avg` and max of `Cr_Avg`
default to 0 exactly when the column is absent; over a subset of size 1
each equals that single row's own value; over an empty subset with the
column present each evaluates to the empty-aggregate `NaN` — the
computation is total, so no division-by-zero failure occurs. -/
theorem comparator_aggregates (df : Df) (selected : List String)
    (r : List Cell) (qH qCr : ℚ) :
    ("HRC_Avg" ∉ df.cols → comparatorAvgHrc df selected = .num 0)
    ∧ ("Cr_Avg" ∉ df.cols → comparatorMaxCr df selected = .num 0)
    ∧ (subsetFor df selected = [r] → "HRC_Avg" ∈ df.cols →
        getCell df.cols r "HRC_Avg" = Cell.num qH →
        comparatorAvgHrc df selected = .num qH)
    ∧ (subsetFor df selected = [r] → "Cr_Avg" ∈ df.cols →
        getCell df.cols r "Cr_Avg" = Cell.num qCr →
        comparatorMaxCr df selected = .num qCr)
    ∧ (subsetFor df selected = [] → "HRC_Avg" ∈ df.cols →
        comparatorAvgHrc df selected = .nan)
    ∧ (subsetFor df selected = [] → "Cr_Avg" ∈ df.cols →
        comparatorMaxCr df selected = .nan) := by
  refine ⟨?_, ?_, ?_, ?_, ?_, ?_⟩
  · intro h
    simp [comparatorAvgHrc, h]
  · intro h
    simp [comparatorMaxCr, h]
  · intro hs hmem hcell
    simp [comparatorAvgHrc, hmem, hs, columnOf, seriesMean, numsOf, hcell]
  · intro hs hmem hcell
    simp [comparatorMaxCr, hmem, hs, columnOf, seriesMax, numsOf, hcell]
  · intro hs hmem
    simp [comparatorAvgHrc, hmem, hs, columnOf, seriesMean, numsOf]
  · intro hs hmem
    simp [comparatorMaxCr, hmem, hs, columnOf, seriesMax, numsOf]

/-- C7 witness: selecting the single material `"A"` yields a size-1
subset whose hardness mean is that row's hardness 50 and whose chromium
max is that row's chromium 12. -/
theorem comparator_aggregates_witness :
    comparatorAvgHrc dfComp ["A"] = AggVal.num 50
    ∧ comparatorMaxCr dfComp ["A"] = AggVal.num 12 := by
  have h := comparator_aggregates dfComp ["A"]
    [Cell.str "A", Cell.num 50, Cell.num 12] 50 12
  exact ⟨h.2.2.1 (by decide) (by decide) (by decide),
    h.2.2.2.1 (by decide) (by decide) (by decide)⟩

/-- C8 counterexample: the expected numeric column `HRC_Avg` is absent
from this table and is still absent after normalization — `load_data`
synthesizes no zero-filled column for it. -/
theorem normalize_no_synthesis :
    "HRC_Avg" ∉ dfNoHrc.cols
    ∧ (normalizeDf dfNoHrc).cols = dfNoHrc.cols
    ∧ "HRC_Avg" ∉ (normalizeDf dfNoHrc).cols := by
  refine ⟨by decide, rfl, by decide⟩

/-- C8 amended: normalization synthesizes nothing — it leaves the column
schema unchanged; downstream consumers instead avoid missing-column
failures through explicit membership guards: when `HRC_Avg` is absent its
filter bounds have no effect on the filtered set and the comparator's
hardness mean defaults to 0, and when `Cr_Avg` is absent the chromium max
defaults to 0. -/
theorem normalize_schema_and_guards (df : Df) (selected : List String)
    (lo lo' hi hi' cr cl : ℚ) :
    (normalizeDf df).cols = df.cols
    ∧ ("HRC_Avg" ∉ df.cols →
        filterTab2 df lo hi cr cl = filterTab2 df lo' hi' cr cl
        ∧ comparatorAvgHrc df selected = .num 0)
    ∧ ("Cr_Avg" ∉ df.cols → comparatorMaxCr df selected = .num 0) := by
  refine ⟨rfl, ?_, ?_⟩
  · intro h
    constructor
    · unfold filterTab2
      simp [h]
    · simp [comparatorAvgHrc, h]
  · intro h
    simp [comparatorMaxCr, h]

/-- C8 witness: on the table lacking `HRC_Avg`, two different hardness
bound pairs filter to the same row set and the hardness mean defaults
to 0. -/
theorem normalize_schema_and_guards_witness :
    filterTab2 dfNoHrc 0 1 0 0 = filterTab2 dfNoHrc 5 6 0 0
    ∧ comparatorAvgHrc dfNoHrc [] = AggVal.num 0 :=
  (normalize_schema_and_guards dfNoHrc [] 0 5 1 6 0 0).2.1 (by decide)
